import Mathlib

/-!
Shallow embedding of the rocket-lamb crate (a Lambda/API-Gateway adapter for
Rocket applications) and proofs about it.  Strings from the Rust source are
modelled as `List Char`; Rust panics are modelled as the `.error` branch of
`Except String`; fallible translation steps return `Except RocketLambError`.
The embedded definitions keep the names of the Rust functions they translate
(`get_path_and_query`, `to_rocket_method`, `base_path`, `populate_resource_path`,
`ensure_client_ready`, ...).
-/

namespace RocketLamb

/-- Character list of a string literal (helper for writing concrete inputs). -/
def chars (s : String) : List Char := s.data

/-- Lower-casing of a Rust string (`str::to_lowercase`), character-wise. -/
def toLowerChars (s : List Char) : List Char := s.map Char.toLower

/-- The character `{` (written via its code point). -/
def lbrace : Char := Char.ofNat 123

/-- The character `}` (written via its code point). -/
def rbrace : Char := Char.ofNat 125

/-- `lambda_http::Body`: the wire body of a request or response. -/
inductive Body where
  | Empty : Body
  | Text (s : List Char) : Body
  | Binary (b : List Nat) : Body
deriving DecidableEq, Repr

/-- `lambda_http::request::RequestContext`, with the fields this crate reads:
the deployment stage and resource-path template for API Gateway events, and
nothing for Application Load Balancer events. -/
inductive RequestContext where
  | ApiGateway (stage : List Char) (resource_path : List Char) : RequestContext
  | Alb : RequestContext
deriving DecidableEq, Repr

/-- `RequestContext::is_alb`. -/
def RequestContext.is_alb : RequestContext → Bool
  | .Alb => true
  | .ApiGateway _ _ => false

/-- The structured proxy event (`lambda_http::Request`) with the fields the
crate reads.  A header value is `some s` when `HeaderValue::to_str` succeeds
with text `s` and `none` when the value is not representable as text.  The
query mapping lists each key once, with all its values in reported order
(`StrMap` iteration / `get_all`), and `pathParameters` is the gateway's
path-parameters mapping. -/
structure ProxyRequest where
  method : List Char
  path : List Char
  headers : List (List Char × Option (List Char))
  query : List (List Char × List (List Char))
  pathParameters : List (List Char × List Char)
  requestContext : RequestContext
  body : Body
deriving DecidableEq, Repr

/-- `error::RocketLambError`: the two per-invocation error kinds. -/
inductive RocketLambError where
  | InvalidRequest (msg : List Char) : RocketLambError
  | InvalidResponse (msg : List Char) : RocketLambError
deriving DecidableEq, Repr

/-- `config::ResponseType`: the response encoding mode. -/
inductive ResponseType where
  | Text : ResponseType
  | Binary : ResponseType
deriving DecidableEq, Repr

/-- `config::BasePathBehaviour`. -/
inductive BasePathBehaviour where
  | RemountAndInclude : BasePathBehaviour
  | Include : BasePathBehaviour
  | Exclude : BasePathBehaviour
deriving DecidableEq, Repr

/-- `config::Config`: the settings carried by the builder and handler.  The
`response_types` hash map is modelled as an association list looked up by
first match; insertion prepends, which matches the map's last-write-wins
observable behaviour. -/
structure Config where
  default_response_type : ResponseType
  response_types : List (List Char × ResponseType)
  base_path_behaviour : BasePathBehaviour
deriving DecidableEq, Repr

/-- `Config::default()`. -/
def Config.default : Config :=
  { default_response_type := .Text
    response_types := []
    base_path_behaviour := .RemountAndInclude }

/-- `RocketHandlerBuilder::response_type` (builder.rs): store an override under
the lower-cased content type. -/
def Config.response_type (cfg : Config) (content_type : List Char)
    (rt : ResponseType) : Config :=
  { cfg with response_types := (toLowerChars content_type, rt) :: cfg.response_types }

/-- `RocketHandlerBuilder::get_response_type` (builder.rs): look up the
lower-cased content type, falling back to the default. -/
def Config.get_response_type (cfg : Config) (content_type : List Char) : ResponseType :=
  (List.lookup (toLowerChars content_type) cfg.response_types).getD
    cfg.default_response_type

/-- `HeaderMap::get_one` on a Rocket response: first header whose name matches
case-insensitively, if any (Rocket header names compare case-insensitively). -/
def get_one (headers : List (List Char × List Char)) (name : List Char) :
    Option (List Char) :=
  (headers.find? (fun h => toLowerChars h.1 == name)).map (·.2)

/-- Resolution of the encoding mode in `create_lambda_response` (handler.rs
lines 93–101): take the `content-type` header (empty string when absent), keep
the part before the first `;`, lower-case it, look it up among the overrides,
and fall back to the configured default. -/
def resolveResponseType (cfg : Config) (contentType : Option (List Char)) :
    ResponseType :=
  let ct := ((contentType.getD []).splitOn ';').headD []
  ((List.lookup (toLowerChars ct) cfg.response_types).getD
    cfg.default_response_type)

/-- `str::rfind(&str)`: index of the last occurrence of `needle` in `hay`
(`some hay.length` for an empty needle), as a left fold over candidate start
positions that keeps the latest hit. -/
def rfindSub (hay needle : List Char) : Option Nat :=
  (List.range (hay.length + 1)).foldl
    (fun acc i => if needle.isPrefixOf (hay.drop i) then some i else acc) none

/-- `str::contains(&str)`: whether `needle` occurs somewhere in `hay`. -/
def containsSub (hay needle : List Char) : Bool :=
  (rfindSub hay needle).isSome

/-- Value of the `host` header, as text: `req.headers().get("host")` followed
by `to_str().ok()`.  The `http` header map matches names case-insensitively
(it stores them lower-cased), so the lookup lower-cases the stored name. -/
def hostOf (req : ProxyRequest) : Option (List Char) :=
  (req.headers.find? (fun h => toLowerChars h.1 == chars "host")).bind (·.2)

/-- `request_ext.rs is_default_api_gateway_url`: the Host header ends in
`.amazonaws.com` and contains `.execute-api.` (false when the header is
missing or not text). -/
def is_default_api_gateway_url (req : ProxyRequest) : Bool :=
  match hostOf req with
  | some h => (chars ".amazonaws.com").isSuffixOf h
      && containsSub h (chars ".execute-api.")
  | none => false

/-- `handler.rs get_api_gateway_base_path`: when base-path inclusion is on and
the Host header ends in `.amazonaws.com` and the event is an API Gateway
event, the base path is `/` followed by the stage. -/
def get_api_gateway_base_path (include_api_gateway_base_path : Bool)
    (req : ProxyRequest) : Option (List Char) :=
  if include_api_gateway_base_path = false then none
  else
    match hostOf req with
    | none => none
    | some host =>
      if (chars ".amazonaws.com").isSuffixOf host then
        match req.requestContext with
        | .ApiGateway stage _ => some ('/' :: stage)
        | .Alb => none
      else none

/-- Panic message of `populate_resource_path` when a placeholder's path
parameter is missing. -/
def missingParamMsg (param : List Char) : String :=
  "Could not find path parameter " ++ String.mk param ++ "."

/-- Whether a resource-path segment is a placeholder (`segment.starts_with('{')`). -/
def isPlaceholderSeg (seg : List Char) : Bool :=
  match seg with
  | c :: _ => c == lbrace
  | [] => false

/-- Name of the parameter inside a placeholder segment: the characters between
the opening brace and the closing `}` or `+}` (`&segment[1..segment.len() - end]`). -/
def paramName (seg : List Char) : List Char :=
  let e := if ['+', rbrace].isSuffixOf seg then 2 else 1
  (seg.drop 1).take (seg.length - e - 1)

/-- Substitution of one resource-path segment in `populate_resource_path`:
placeholders are replaced by the matching path parameter, panicking
(`.error`) when it is absent; other segments pass through. -/
def substSeg (pp : List (List Char × List Char)) (seg : List Char) :
    Except String (List Char) :=
  if isPlaceholderSeg seg then
    match List.lookup (paramName seg) pp with
    | some v => .ok v
    | none => .error (missingParamMsg (paramName seg))
  else .ok seg

/-- Substitution over a list of segments, left to right, stopping at the first
panic (the Rust `map` closure panics inside the iteration). -/
def substituteSegments (pp : List (List Char × List Char)) :
    List (List Char) → Except String (List (List Char))
  | [] => .ok []
  | seg :: rest => do
      let v ← substSeg pp seg
      let vs ← substituteSegments pp rest
      .ok (v :: vs)

/-- `request_ext.rs populate_resource_path`: split the resource-path template
on `/`, substitute each placeholder with its path parameter, and re-join with
`/`. -/
def populate_resource_path (req : ProxyRequest) (resource_path : List Char) :
    Except String (List Char) := do
  let segs ← substituteSegments req.pathParameters (resource_path.splitOn '/')
  .ok (List.intercalate ['/'] segs)

/-- Panic message of `base_path` when the populated resource path cannot be
found in the full path. -/
def segmentNotFoundMsg (resource_path full_path : List Char) : String :=
  "Could not find segment " ++ String.mk resource_path ++ " in path " ++
    String.mk full_path ++ "."

/-- `request_ext.rs base_path`: `/` + stage on the default API Gateway domain;
on a custom domain, everything before the last occurrence of the populated
resource path inside the full path (panicking when it cannot be found); empty
for Application Load Balancer events. -/
def base_path (req : ProxyRequest) : Except String (List Char) :=
  match req.requestContext with
  | .ApiGateway stage resource_path =>
    if is_default_api_gateway_url req then .ok ('/' :: stage)
    else do
      let resource_path ← populate_resource_path req resource_path
      match rfindSub req.path resource_path with
      | some i => .ok (req.path.take i)
      | none => .error (segmentNotFoundMsg resource_path req.path)
  | .Alb => .ok []

/-- `request_ext.rs full_path`: the incoming URI path, prefixed with the base
path only for default-domain API Gateway events. -/
def full_path (req : ProxyRequest) : Except String (List Char) :=
  if req.requestContext.is_alb || !is_default_api_gateway_url req then
    .ok req.path
  else do
    let bp ← base_path req
    .ok (bp ++ req.path)

/-- `request_ext.rs api_path`: the incoming URI path with the base path
stripped from the front on custom-domain API Gateway events. -/
def api_path (req : ProxyRequest) : Except String (List Char) :=
  if req.requestContext.is_alb || is_default_api_gateway_url req then
    .ok req.path
  else do
    let bp ← base_path req
    .ok (req.path.drop bp.length)

/-- Modelled from the spec: the handler revision that consumes
`BasePathBehaviour` together with `full_path`/`api_path` is not present under
src/ (src/handler.rs is the earlier boolean-flag revision), so the
mode-to-dispatch-path selection follows §4.4 of the spec: `Exclude` dispatches
the application-relative path, `Include` and `RemountAndInclude` dispatch the
full incoming path. -/
def dispatchPath (mode : BasePathBehaviour) (req : ProxyRequest) :
    Except String (List Char) :=
  match mode with
  | .Exclude => api_path req
  | .Include => full_path req
  | .RemountAndInclude => full_path req

/-- `handler.rs get_path_and_query`, parameterized by Rocket's external
percent-encoder `pe` (`Uri::percent_encode`): start from the URI path
(prefixed with the API Gateway base path when one resolves), then append one
`key=value` pair per reported value of each query key, the first preceded by
`?` and the rest by `&`, via a mutable separator character. -/
def get_path_and_query (pe : List Char → List Char)
    (include_api_gateway_base_path : Bool) (req : ProxyRequest) : List Char :=
  let uri :=
    match get_api_gateway_base_path include_api_gateway_base_path req with
    | some bp => bp ++ req.path
    | none => req.path
  (req.query.foldl
    (fun acc kv =>
      kv.2.foldl
        (fun a v => (a.1 ++ [a.2] ++ pe kv.1 ++ ['='] ++ pe v, '&')) acc)
    (uri, '?')).1

/-- The flattened list of percent-encoded `key=value` pairs of a query, keys
in iteration order and each key's values in reported order. -/
def queryPairs (pe : List Char → List Char)
    (query : List (List Char × List (List Char))) : List (List Char) :=
  query.flatMap (fun kv => kv.2.map (fun v => pe kv.1 ++ ['='] ++ pe v))

/-- Serialization of a pair list with a leading separator: the first element
is preceded by `c`, every later one by `&` (the specification's reading of
the query-string loop). -/
def joinC (c : Char) : List (List Char) → List Char
  | [] => []
  | p :: ps => c :: (p ++ joinC '&' ps)

/-- `rocket::http::Method`: the nine methods of the translation table. -/
inductive RocketMethod where
  | Get | Put | Post | Delete | Options | Head | Trace | Connect | Patch
deriving DecidableEq, Repr

/-- `handler.rs to_rocket_method`: the fixed method table; anything else is an
InvalidRequest naming the unknown method. -/
def to_rocket_method (m : List Char) : Except RocketLambError RocketMethod :=
  if m = chars "GET" then .ok .Get
  else if m = chars "PUT" then .ok .Put
  else if m = chars "POST" then .ok .Post
  else if m = chars "DELETE" then .ok .Delete
  else if m = chars "OPTIONS" then .ok .Options
  else if m = chars "HEAD" then .ok .Head
  else if m = chars "TRACE" then .ok .Trace
  else if m = chars "CONNECT" then .ok .Connect
  else if m = chars "PATCH" then .ok .Patch
  else .error (.InvalidRequest (chars "unknown method " ++ m))

/-- The nine supported method names. -/
def methodTable : List (List Char) :=
  [chars "GET", chars "PUT", chars "POST", chars "DELETE", chars "OPTIONS",
   chars "HEAD", chars "TRACE", chars "CONNECT", chars "PATCH"]

/-- The wire name of each local method (the inverse reading of the table). -/
def methodName : RocketMethod → List Char
  | .Get => chars "GET"
  | .Put => chars "PUT"
  | .Post => chars "POST"
  | .Delete => chars "DELETE"
  | .Options => chars "OPTIONS"
  | .Head => chars "HEAD"
  | .Trace => chars "TRACE"
  | .Connect => chars "CONNECT"
  | .Patch => chars "PATCH"

/-- The local request handed to Rocket's local client: translated method,
assembled URI, copied headers (as text), and the incoming body unchanged. -/
structure LocalRequest where
  method : RocketMethod
  uri : List Char
  headers : List (List Char × List Char)
  body : Body
deriving DecidableEq, Repr

/-- The header-copying loop of `create_rocket_request`: copy each header in
order, returning InvalidRequest naming the first header whose value is not
representable as text. -/
def copyHeaders : List (List Char × Option (List Char)) →
    Except RocketLambError (List (List Char × List Char))
  | [] => .ok []
  | h :: rest =>
    match h.2 with
    | some v => do
        let hs ← copyHeaders rest
        .ok ((h.1, v) :: hs)
    | none =>
        .error (.InvalidRequest (chars "invalid value for header " ++ h.1))

/-- `handler.rs create_rocket_request`: translate the method, assemble the
dispatch URI, copy each header (failing with InvalidRequest naming the header
when its value is not text), and attach the body. -/
def create_rocket_request (pe : List Char → List Char)
    (include_api_gateway_base_path : Bool) (req : ProxyRequest) :
    Except RocketLambError LocalRequest := do
  let method ← to_rocket_method req.method
  let uri := get_path_and_query pe include_api_gateway_base_path req
  let headers ← copyHeaders req.headers
  .ok ⟨method, uri, headers, req.body⟩

/-- A Rocket local response body: the bytes the body reader yields, or `none`
when reading them fails.  `into_string` additionally decodes as UTF-8 (the
external decoder is a parameter below); `into_bytes` is the raw read. -/
structure LocalBody where
  bytes : Option (List Nat)
deriving DecidableEq, Repr

/-- `Body::into_string`: read the bytes and decode them as UTF-8; `none` when
reading or decoding fails. -/
def body_into_string (decode : List Nat → Option (List Char)) (b : LocalBody) :
    Option (List Char) :=
  b.bytes.bind decode

/-- `Body::into_bytes`: read the bytes; `none` when reading fails. -/
def body_into_bytes (b : LocalBody) : Option (List Nat) :=
  b.bytes

/-- A Rocket `LocalResponse`: status code, headers, optional body. -/
structure LocalResponse where
  status : Nat
  headers : List (List Char × List Char)
  body : Option LocalBody
deriving DecidableEq, Repr

/-- The outbound wire response assembled for the Lambda runtime. -/
structure LambdaResponse where
  status : Nat
  headers : List (List Char × List Char)
  body : Body
deriving DecidableEq, Repr

/-- `handler.rs create_lambda_response`: copy status and headers, resolve the
encoding mode from the `content-type` header and the configuration, and
populate the wire body: Empty when there is no body; Text of the UTF-8
decoding under Text mode (InvalidResponse when decoding fails); Binary of the
bytes under Binary mode (empty bytes when they are unavailable).  Re-validation
of header values by the external response builder is not modelled. -/
def create_lambda_response (decode : List Nat → Option (List Char))
    (cfg : Config) (res : LocalResponse) :
    Except RocketLambError LambdaResponse := do
  let rt := resolveResponseType cfg (get_one res.headers (chars "content-type"))
  let body ←
    match res.body, rt with
    | some b, .Text =>
      match body_into_string decode b with
      | some s => Except.ok (Body.Text s)
      | none =>
          Except.error
            (RocketLambError.InvalidResponse (chars "response body was not text"))
    | some b, .Binary => Except.ok (Body.Binary ((body_into_bytes b).getD []))
    | none, _ => Except.ok Body.Empty
  .ok ⟨res.status, res.headers, body⟩

/-- A Rocket application, reduced to the routes it has mounted (each route a
path). -/
structure Rocket where
  routes : List (List Char)
deriving DecidableEq, Repr

/-- `Rocket::mount`: clone the given routes under an additional base path. -/
def Rocket.mount (r : Rocket) (base : List Char) (routes : List (List Char)) :
    Rocket :=
  ⟨r.routes ++ routes.map (fun rt => base ++ rt)⟩

/-- A dispatch-ready local client (`rocket::local::Client`), wrapping the
launched application. -/
structure Client where
  rocket : Rocket
deriving DecidableEq, Repr

/-- `handler.rs LazyClient`: the three-state lazily initialized client. -/
inductive LazyClient where
  | Placeholder : LazyClient
  | Uninitialized (rocket : Rocket) : LazyClient
  | Ready (client : Client) : LazyClient
deriving DecidableEq, Repr

/-- The client built by the first invocation's initialization: remount the
routes under the API Gateway base path when one resolves, then construct the
local client (`Client::untracked`). -/
def initClient (include_api_gateway_base_path : Bool) (req : ProxyRequest)
    (rocket : Rocket) : Client :=
  match get_api_gateway_base_path include_api_gateway_base_path req with
  | some bp => ⟨rocket.mount bp rocket.routes⟩
  | none => ⟨rocket⟩

/-- Panic message of `ensure_client_ready` on a `Placeholder` client (spelling
as in the source). -/
def placeholderPanicMsg : String :=
  "LazyClient has previously begun initialiation."

/-- `handler.rs ensure_client_ready`, as the sequence of states the `client`
field passes through during one call: an `Uninitialized` client is first
swapped to `Placeholder` and then set to `Ready`; a `Ready` client is left
alone; a `Placeholder` client is a panic. -/
def ensure_client_ready (include_api_gateway_base_path : Bool)
    (req : ProxyRequest) : LazyClient → Except String (List LazyClient)
  | .Uninitialized rocket =>
      .ok [.Placeholder,
           .Ready (initClient include_api_gateway_base_path req rocket)]
  | .Ready c => .ok [.Ready c]
  | .Placeholder => .error placeholderPanicMsg

/-- The state sequence of the `client` field over a run of invocations: each
invocation contributes the states of its ensure-ready step, and hands the last
one to the next invocation. -/
def invokeTrace (include_api_gateway_base_path : Bool) :
    List ProxyRequest → LazyClient → Except String (List LazyClient)
  | [], _ => .ok []
  | req :: rest, s => do
      let states ← ensure_client_ready include_api_gateway_base_path req s
      let tail ← invokeTrace include_api_gateway_base_path rest (states.getLastD s)
      .ok (states ++ tail)

/-! Concrete proxy events and responses in the shape of the crate's test
fixtures, used to instantiate the theorems below. -/

/-- A default-domain API Gateway event (stage `Prod`, path `/path`, one query
key with two values and another with one). -/
def fixtureDefaultDomain : ProxyRequest :=
  { method := chars "GET"
    path := chars "/path"
    headers :=
      [(chars "Host", some (chars "xyz.execute-api.eu-west-1.amazonaws.com"))]
    query := [(chars "a", [chars "1", chars "2"]), (chars "b", [chars "3"])]
    pathParameters := []
    requestContext := .ApiGateway (chars "Prod") (chars "/path")
    body := .Empty }

/-- A custom-domain API Gateway event whose populated resource path
(`/items/1`) occurs twice in the incoming path. -/
def fixtureCustomDomain : ProxyRequest :=
  { method := chars "GET"
    path := chars "/base/items/1/items/1"
    headers := [(chars "host", some (chars "api.example.com"))]
    query := []
    pathParameters := [(chars "id", chars "1")]
    requestContext :=
      .ApiGateway (chars "Prod") (chars "/items/\x7bid\x7d")
    body := .Empty }

/-- A custom-domain API Gateway event whose resource-path template names a
path parameter that the event does not carry. -/
def fixtureMissingParam : ProxyRequest :=
  { fixtureCustomDomain with pathParameters := [] }

/-- An Application Load Balancer event. -/
def fixtureAlb : ProxyRequest :=
  { method := chars "GET"
    path := chars "/path"
    headers := []
    query := []
    pathParameters := []
    requestContext := .Alb
    body := .Empty }

/-- A byte-wise decoder standing in for UTF-8 decoding on ASCII-only concrete
bodies. -/
def decodeAscii (bs : List Nat) : Option (List Char) :=
  some (bs.map Char.ofNat)

/-- A local response with a text body (`hi` as bytes) and a text content
type. -/
def fixtureTextResponse : LocalResponse :=
  { status := 200
    headers := [(chars "Content-Type", chars "text/plain; charset=utf-8")]
    body := some ⟨some [104, 105]⟩ }

/-- A local response with no body. -/
def fixtureNoBodyResponse : LocalResponse :=
  { status := 404, headers := [], body := none }

/-! Theorems. -/

/-- C2: the resolved encoding mode is the override stored under the
lower-cased first `;`-separated segment of the content type when one exists
and the configured default otherwise; an absent content type behaves as the
empty string; because override keys are lower-cased on insertion and lookup,
setting an override and querying any case-variant of the same content type
returns the override, while querying a content type with a different
lower-cased first segment is unaffected by the insertion and, in a
configuration with no overrides, returns the default. -/
theorem content_type_encoding_resolution (cfg : Config) (ct v : List Char)
    (rt : ResponseType) (hdr : Option (List Char)) (d : ResponseType)
    (b : BasePathBehaviour) :
    (resolveResponseType cfg none = resolveResponseType cfg (some [])) ∧
    (∀ m, List.lookup (toLowerChars (((hdr.getD []).splitOn ';').headD []))
        cfg.response_types = some m → resolveResponseType cfg hdr = m) ∧
    (List.lookup (toLowerChars (((hdr.getD []).splitOn ';').headD []))
        cfg.response_types = none →
      resolveResponseType cfg hdr = cfg.default_response_type) ∧
    (toLowerChars ((v.splitOn ';').headD []) = toLowerChars ct →
      resolveResponseType (cfg.response_type ct rt) (some v) = rt) ∧
    (toLowerChars ((v.splitOn ';').headD []) ≠ toLowerChars ct →
      resolveResponseType (cfg.response_type ct rt) (some v) =
        resolveResponseType cfg (some v)) ∧
    (resolveResponseType ⟨d, [], b⟩ hdr = d) := by
  refine ⟨rfl, ?_, ?_, ?_, ?_, ?_⟩
  · intro m hm
    simp only [resolveResponseType, hm, Option.getD_some]
  · intro hm
    simp only [resolveResponseType, hm, Option.getD_none]
  · intro hv
    simp only [resolveResponseType, Config.response_type, List.lookup, hv,
      beq_self_eq_true, Option.getD_some]
  · intro hv
    have hbeq : (toLowerChars (((((some v).getD []).splitOn ';').headD [])
        : List Char) == toLowerChars ct) = false := by
      simp only [beq_eq_false_iff_ne, ne_eq, Option.getD_some]
      exact hv
    simp only [resolveResponseType, Config.response_type, List.lookup, hbeq]
  · simp [resolveResponseType]

/-- Witness for C2 at concrete inputs: an override stored under
`TEXT/PLAIN` is returned for `Text/Plain; charset=utf-8` and does not affect
`application/json`, which still resolves to the default. -/
theorem content_type_encoding_resolution_witness :
    resolveResponseType ((Config.default).response_type (chars "TEXT/PLAIN")
        .Binary) (some (chars "Text/Plain; charset=utf-8")) = .Binary ∧
    resolveResponseType ((Config.default).response_type (chars "TEXT/PLAIN")
        .Binary) (some (chars "application/json")) = .Text := by
  constructor
  · exact (content_type_encoding_resolution Config.default (chars "TEXT/PLAIN")
      (chars "Text/Plain; charset=utf-8") .Binary none .Text
      .RemountAndInclude).2.2.2.1 (by decide)
  · have h := (content_type_encoding_resolution Config.default
      (chars "TEXT/PLAIN") (chars "application/json") .Binary none .Text
      .RemountAndInclude).2.2.2.2.1 (by decide)
    rw [h]
    rfl

/-- C6: for an API Gateway event whose Host header identifies the default
gateway domain — suffix `.amazonaws.com` in the handler's check, and
additionally containing `.execute-api.` in the stricter `request_ext` check —
the resolved base path is exactly `/` followed by the stage from the request
context. -/
theorem default_domain_base_path (req : ProxyRequest) (stage rp host : List Char)
    (hctx : req.requestContext = .ApiGateway stage rp)
    (hhost : hostOf req = some host) :
    ((chars ".amazonaws.com").isSuffixOf host = true →
      get_api_gateway_base_path true req = some ('/' :: stage)) ∧
    (is_default_api_gateway_url req = true →
      base_path req = .ok ('/' :: stage)) := by
  constructor
  · intro hsuf
    simp only [get_api_gateway_base_path, hhost, hsuf, hctx, if_true,
      Bool.true_eq_false, if_false]
  · intro hdef
    simp only [base_path, hctx, hdef, if_true]

/-- Witness for C6: the default-domain fixture event (host
`xyz.execute-api.eu-west-1.amazonaws.com`, stage `Prod`) resolves a base path
of `/Prod` under both checks. -/
theorem default_domain_base_path_witness :
    get_api_gateway_base_path true fixtureDefaultDomain
      = some (chars "/Prod") ∧
    base_path fixtureDefaultDomain = .ok (chars "/Prod") := by
  have h := default_domain_base_path fixtureDefaultDomain (chars "Prod")
    (chars "/path") (chars "xyz.execute-api.eu-west-1.amazonaws.com")
    rfl rfl
  exact ⟨h.1 (by decide), h.2 (by decide)⟩

/-- C8: for an Application Load Balancer event the resolved base path is
empty, and the dispatch path equals the incoming URI path under each of the
three base-path modes. -/
theorem alb_base_path_empty (req : ProxyRequest)
    (h : req.requestContext = .Alb) :
    base_path req = .ok [] ∧
    (∀ mode, dispatchPath mode req = .ok req.path) := by
  have hbase : base_path req = .ok [] := by
    simp only [base_path, h]
  refine ⟨hbase, ?_⟩
  have halb : req.requestContext.is_alb = true := by
    rw [h]; rfl
  intro mode
  cases mode <;>
    simp only [dispatchPath, full_path, api_path, halb, Bool.true_or, if_true]

/-- Witness for C8: the load-balancer fixture event has an empty base path
and dispatch path `/path` under every mode. -/
theorem alb_base_path_empty_witness :
    base_path fixtureAlb = .ok [] ∧
    dispatchPath .RemountAndInclude fixtureAlb = .ok (chars "/path") ∧
    dispatchPath .Include fixtureAlb = .ok (chars "/path") ∧
    dispatchPath .Exclude fixtureAlb = .ok (chars "/path") := by
  have h := alb_base_path_empty fixtureAlb rfl
  exact ⟨h.1, h.2 .RemountAndInclude, h.2 .Include, h.2 .Exclude⟩

/-- Helper: from a `Ready` client, every invocation's ensure-ready step leaves
the state unchanged. -/
theorem invokeTrace_ready (incl : Bool) (c : Client) :
    ∀ reqs : List ProxyRequest,
      invokeTrace incl reqs (.Ready c)
        = .ok (List.replicate reqs.length (.Ready c)) := by
  intro reqs
  induction reqs with
  | nil => rfl
  | cons req rest ih =>
    simp only [invokeTrace, ensure_client_ready, List.getLastD, List.getLast,
      bind, Except.bind, ih, List.length_cons, List.replicate_succ,
      List.singleton_append]

/-- C3: over any run of invocations starting from an `Uninitialized` client,
the state sequence is exactly `Placeholder` then `Ready`, once each, followed
by the unchanged `Ready` state for every later invocation (the transitions
Uninitialized→Placeholder→Ready happen exactly once and Ready is terminal);
and entering the ensure-ready step while the state is `Placeholder` is a panic
(`.error`), never a normal return. -/
theorem lazy_client_lifecycle (incl : Bool) (r : Rocket) (req : ProxyRequest)
    (rest : List ProxyRequest) :
    invokeTrace incl (req :: rest) (.Uninitialized r)
      = .ok ([.Placeholder, .Ready (initClient incl req r)]
          ++ List.replicate rest.length (.Ready (initClient incl req r))) ∧
    (∀ (c : Client) (reqs : List ProxyRequest),
      invokeTrace incl reqs (.Ready c)
        = .ok (List.replicate reqs.length (.Ready c))) ∧
    (∀ req2 : ProxyRequest,
      ensure_client_ready incl req2 .Placeholder = .error placeholderPanicMsg) := by
  refine ⟨?_, fun c reqs => invokeTrace_ready incl c reqs, fun _ => rfl⟩
  simp only [invokeTrace, ensure_client_ready, List.getLastD, List.getLast,
    bind, Except.bind, invokeTrace_ready]

/-- Helper: the method translation succeeds exactly on the nine-entry table. -/
theorem to_rocket_method_ok_iff_mem (m : List Char) :
    (∃ r, to_rocket_method m = .ok r) ↔ m ∈ methodTable := by
  unfold to_rocket_method
  split_ifs <;> simp_all [methodTable]

/-- Helper: every failure of the method translation is an InvalidRequest
naming the unknown method. -/
theorem to_rocket_method_error_shape (m : List Char) (e : RocketLambError)
    (h : to_rocket_method m = .error e) :
    e = .InvalidRequest (chars "unknown method " ++ m) := by
  unfold to_rocket_method at h
  split_ifs at h
  cases h
  rfl

/-- Helper: a successful method translation determines the method name. -/
theorem to_rocket_method_ok_name (m : List Char) (r : RocketMethod)
    (h : to_rocket_method m = .ok r) : m = methodName r := by
  unfold to_rocket_method at h
  split_ifs at h with h1 h2 h3 h4 h5 h6 h7 h8 h9
  · cases h; exact h1
  · cases h; exact h2
  · cases h; exact h3
  · cases h; exact h4
  · cases h; exact h5
  · cases h; exact h6
  · cases h; exact h7
  · cases h; exact h8
  · cases h; exact h9

/-- Helper: the method translation is injective on successes. -/
theorem to_rocket_method_ok_inj (m1 m2 : List Char) (r : RocketMethod)
    (h1 : to_rocket_method m1 = .ok r) (h2 : to_rocket_method m2 = .ok r) :
    m1 = m2 :=
  (to_rocket_method_ok_name m1 r h1).trans
    (to_rocket_method_ok_name m2 r h2).symm

/-- Helper: copying the headers succeeds exactly when every header value is
representable as text. -/
theorem copyHeaders_ok_iff (hs : List (List Char × Option (List Char))) :
    (∃ l, copyHeaders hs = .ok l) ↔ ∀ h ∈ hs, h.2.isSome = true := by
  induction hs with
  | nil => simp [copyHeaders]
  | cons h rest ih =>
    cases hv : h.2 with
    | some v =>
      simp only [copyHeaders, hv, bind, Except.bind]
      constructor
      · rintro ⟨l, hl⟩
        cases hrest : copyHeaders rest with
        | error e => rw [hrest] at hl; exact absurd hl (by simp)
        | ok l2 =>
          intro x hx
          rcases List.mem_cons.mp hx with hx | hx
          · rw [hx, hv]; rfl
          · exact (ih.mp ⟨l2, hrest⟩) x hx
      · intro hall
        rcases ih.mpr (fun x hx => hall x (List.mem_cons_of_mem h hx)) with
          ⟨l2, hl2⟩
        exact ⟨(h.1, v) :: l2, by rw [hl2]⟩
    | none =>
      simp only [copyHeaders, hv]
      constructor
      · rintro ⟨l, hl⟩
        exact absurd hl (by simp)
      · intro hall
        have := hall h (List.mem_cons_self h rest)
        rw [hv] at this
        exact absurd this (by simp)

/-- Helper: every failure of the header copy is an InvalidRequest naming the
offending header. -/
theorem copyHeaders_error_shape (hs : List (List Char × Option (List Char)))
    (e : RocketLambError) (h : copyHeaders hs = .error e) :
    ∃ name, e = .InvalidRequest (chars "invalid value for header " ++ name) := by
  induction hs with
  | nil => exact absurd h (by simp [copyHeaders])
  | cons x rest ih =>
    cases hv : x.2 with
    | some v =>
      simp only [copyHeaders, hv, bind, Except.bind] at h
      cases hrest : copyHeaders rest with
      | error e2 =>
        rw [hrest] at h
        cases h
        exact ih hrest
      | ok l => rw [hrest] at h; exact absurd h (by simp)
    | none =>
      simp only [copyHeaders, hv, Except.error.injEq] at h
      exact ⟨x.1, h.symm⟩

/-- C4: translating a proxy event into a local request succeeds exactly when
the method is one of the nine supported methods and every header value is
representable as text; every failure is an InvalidRequest; each of the nine
methods maps to its corresponding local method; and the mapping is
one-to-one. -/
theorem method_and_header_translation (pe : List Char → List Char)
    (incl : Bool) (req : ProxyRequest) :
    ((∃ l, create_rocket_request pe incl req = .ok l) ↔
      (req.method ∈ methodTable ∧ ∀ h ∈ req.headers, h.2.isSome = true)) ∧
    (∀ e, create_rocket_request pe incl req = .error e →
      e = .InvalidRequest (chars "unknown method " ++ req.method) ∨
      ∃ name, e = .InvalidRequest (chars "invalid value for header " ++ name)) ∧
    (to_rocket_method (chars "GET") = .ok .Get ∧
     to_rocket_method (chars "PUT") = .ok .Put ∧
     to_rocket_method (chars "POST") = .ok .Post ∧
     to_rocket_method (chars "DELETE") = .ok .Delete ∧
     to_rocket_method (chars "OPTIONS") = .ok .Options ∧
     to_rocket_method (chars "HEAD") = .ok .Head ∧
     to_rocket_method (chars "TRACE") = .ok .Trace ∧
     to_rocket_method (chars "CONNECT") = .ok .Connect ∧
     to_rocket_method (chars "PATCH") = .ok .Patch) ∧
    (∀ m1 m2 r, to_rocket_method m1 = .ok r → to_rocket_method m2 = .ok r →
      m1 = m2) := by
  refine ⟨?_, ?_, ⟨rfl, rfl, rfl, rfl, rfl, rfl, rfl, rfl, rfl⟩,
    to_rocket_method_ok_inj⟩
  · cases hm : to_rocket_method req.method with
    | error e =>
      simp only [create_rocket_request, hm, bind, Except.bind]
      constructor
      · rintro ⟨l, hl⟩
        exact absurd hl (by simp)
      · rintro ⟨hmem, -⟩
        rcases (to_rocket_method_ok_iff_mem req.method).mpr hmem with ⟨r, hr⟩
        rw [hm] at hr
        exact absurd hr (by simp)
    | ok r =>
      simp only [create_rocket_request, hm, bind, Except.bind]
      have hmem : req.method ∈ methodTable :=
        (to_rocket_method_ok_iff_mem req.method).mp ⟨r, hm⟩
      constructor
      · rintro ⟨l, hl⟩
        cases hh : copyHeaders req.headers with
        | error e => rw [hh] at hl; exact absurd hl (by simp)
        | ok l2 =>
          exact ⟨hmem, (copyHeaders_ok_iff req.headers).mp ⟨l2, hh⟩⟩
      · rintro ⟨-, hall⟩
        rcases (copyHeaders_ok_iff req.headers).mpr hall with ⟨l2, hl2⟩
        exact ⟨_, by rw [hl2]⟩
  · intro e he
    cases hm : to_rocket_method req.method with
    | error e2 =>
      simp only [create_rocket_request, hm, bind, Except.bind] at he
      cases he
      exact Or.inl (to_rocket_method_error_shape req.method e hm)
    | ok r =>
      simp only [create_rocket_request, hm, bind, Except.bind] at he
      cases hh : copyHeaders req.headers with
      | error e2 =>
        rw [hh] at he
        cases he
        exact Or.inr (copyHeaders_error_shape req.headers e hh)
      | ok l2 => rw [hh] at he; exact absurd he (by simp)

/-- Witness for C4: the default-domain fixture event (method GET, one
text-valued header) translates successfully. -/
theorem method_and_header_translation_witness :
    ∃ l, create_rocket_request id false fixtureDefaultDomain = .ok l :=
  (method_and_header_translation id false fixtureDefaultDomain).1.mpr
    ⟨by decide, by decide⟩

/-- C5: the wire body is Empty whenever the local response has no body,
whatever the resolved mode; under Text mode it is the UTF-8 decoding of the
body, with the invocation failing as InvalidResponse when decoding fails; and
under Binary mode it is the body bytes, with an empty byte sequence (not an
error) when the bytes are unavailable. -/
theorem response_body_population (decode : List Nat → Option (List Char))
    (cfg : Config) (res : LocalResponse) :
    (res.body = none →
      create_lambda_response decode cfg res
        = .ok ⟨res.status, res.headers, .Empty⟩) ∧
    (∀ b s, res.body = some b →
      resolveResponseType cfg (get_one res.headers (chars "content-type"))
        = .Text →
      body_into_string decode b = some s →
      create_lambda_response decode cfg res
        = .ok ⟨res.status, res.headers, .Text s⟩) ∧
    (∀ b, res.body = some b →
      resolveResponseType cfg (get_one res.headers (chars "content-type"))
        = .Text →
      body_into_string decode b = none →
      create_lambda_response decode cfg res
        = .error (.InvalidResponse (chars "response body was not text"))) ∧
    (∀ b bs, res.body = some b →
      resolveResponseType cfg (get_one res.headers (chars "content-type"))
        = .Binary →
      body_into_bytes b = some bs →
      create_lambda_response decode cfg res
        = .ok ⟨res.status, res.headers, .Binary bs⟩) ∧
    (∀ b, res.body = some b →
      resolveResponseType cfg (get_one res.headers (chars "content-type"))
        = .Binary →
      body_into_bytes b = none →
      create_lambda_response decode cfg res
        = .ok ⟨res.status, res.headers, .Binary []⟩) := by
  refine ⟨?_, ?_, ?_, ?_, ?_⟩
  · intro hb
    simp only [create_lambda_response, hb, bind, Except.bind]
  · intro b s hb hrt hs
    simp only [create_lambda_response, hb, hrt, hs, bind, Except.bind]
  · intro b hb hrt hs
    simp only [create_lambda_response, hb, hrt, hs, bind, Except.bind]
  · intro b bs hb hrt hbs
    simp only [create_lambda_response, hb, hrt, bind, Except.bind, hbs,
      Option.getD_some]
  · intro b hb hrt hbs
    simp only [create_lambda_response, hb, hrt, bind, Except.bind, hbs,
      Option.getD_none]

/-- Witness for C5 at concrete responses: a bodyless 404 yields an Empty wire
body under the default configuration, and the text fixture response yields its
decoded body as Text. -/
theorem response_body_population_witness :
    create_lambda_response decodeAscii Config.default fixtureNoBodyResponse
      = .ok ⟨404, [], .Empty⟩ ∧
    create_lambda_response decodeAscii Config.default fixtureTextResponse
      = .ok ⟨200, [(chars "Content-Type", chars "text/plain; charset=utf-8")],
          .Text (chars "hi")⟩ := by
  constructor
  · exact (response_body_population decodeAscii Config.default
      fixtureNoBodyResponse).1 rfl
  · exact (response_body_population decodeAscii Config.default
      fixtureTextResponse).2.1 ⟨some [104, 105]⟩ (chars "hi") rfl (by decide)
      (by decide)

/-- Helper: a failing segment substitution is a placeholder with a missing
parameter, and the panic names that parameter. -/
theorem substSeg_error_shape (pp : List (List Char × List Char))
    (seg : List Char) (e : String) (h : substSeg pp seg = .error e) :
    isPlaceholderSeg seg = true ∧
    List.lookup (paramName seg) pp = none ∧
    e = missingParamMsg (paramName seg) := by
  unfold substSeg at h
  split_ifs at h with hph
  · cases hl : List.lookup (paramName seg) pp with
    | some v => rw [hl] at h; exact absurd h (by simp)
    | none =>
      rw [hl] at h
      cases h
      exact ⟨hph, rfl, rfl⟩

/-- Helper: substitution succeeds when every placeholder has its parameter. -/
theorem substituteSegments_ok_of_params (pp : List (List Char × List Char))
    (segs : List (List Char))
    (hall : ∀ seg ∈ segs, isPlaceholderSeg seg = true →
      (List.lookup (paramName seg) pp).isSome = true) :
    ∃ vs, substituteSegments pp segs = .ok vs := by
  induction segs with
  | nil => exact ⟨[], rfl⟩
  | cons seg rest ih =>
    have hhead : ∃ v, substSeg pp seg = .ok v := by
      unfold substSeg
      split_ifs with hph
      · have := hall seg (List.mem_cons_self seg rest) hph
        cases hl : List.lookup (paramName seg) pp with
        | some v => exact ⟨v, rfl⟩
        | none => rw [hl] at this; exact absurd this (by simp)
      · exact ⟨seg, rfl⟩
    rcases hhead with ⟨v, hv⟩
    rcases ih (fun s hs => hall s (List.mem_cons_of_mem seg hs)) with ⟨vs, hvs⟩
    exact ⟨v :: vs, by simp only [substituteSegments, hv, hvs, bind, Except.bind]⟩

/-- Helper: substitution panics, naming a missing parameter, when some
placeholder's parameter is absent. -/
theorem substituteSegments_error_of_missing (pp : List (List Char × List Char))
    (segs : List (List Char))
    (hex : ∃ seg ∈ segs, isPlaceholderSeg seg = true ∧
      List.lookup (paramName seg) pp = none) :
    ∃ p, List.lookup p pp = none ∧
      substituteSegments pp segs = .error (missingParamMsg p) := by
  induction segs with
  | nil => rcases hex with ⟨seg, hmem, -⟩; exact absurd hmem (by simp)
  | cons seg rest ih =>
    cases hs : substSeg pp seg with
    | error e =>
      rcases substSeg_error_shape pp seg e hs with ⟨-, hnone, he⟩
      refine ⟨paramName seg, hnone, ?_⟩
      rw [← he]
      simp only [substituteSegments, hs, bind, Except.bind]
    | ok v =>
      rcases hex with ⟨s, hmem, hph, hnone⟩
      rcases List.mem_cons.mp hmem with hseq | hmem2
      · subst hseq
        unfold substSeg at hs
        rw [if_pos hph, hnone] at hs
        exact absurd hs (by simp)
      · rcases ih ⟨s, hmem2, hph, hnone⟩ with ⟨p, hp, herr⟩
        exact ⟨p, hp, by simp only [substituteSegments, hs, herr, bind,
          Except.bind]⟩

/-- C10: when the resource-path template contains a placeholder whose name is
absent from the event's path parameters, the resolution panics (a fatal
`.error` naming the missing parameter, not a per-invocation InvalidRequest);
when every placeholder name has a parameter, the panic branch is unreachable
and substitution succeeds. -/
theorem missing_path_parameter (req : ProxyRequest) (rp : List Char) :
    ((∀ seg ∈ rp.splitOn '/', isPlaceholderSeg seg = true →
        (List.lookup (paramName seg) req.pathParameters).isSome = true) →
      ∃ v, populate_resource_path req rp = .ok v) ∧
    ((∃ seg ∈ rp.splitOn '/', isPlaceholderSeg seg = true ∧
        List.lookup (paramName seg) req.pathParameters = none) →
      ∃ p, List.lookup p req.pathParameters = none ∧
        populate_resource_path req rp = .error (missingParamMsg p)) := by
  constructor
  · intro hall
    rcases substituteSegments_ok_of_params req.pathParameters (rp.splitOn '/')
      hall with ⟨vs, hvs⟩
    exact ⟨List.intercalate ['/'] vs,
      by simp only [populate_resource_path, hvs, bind, Except.bind]⟩
  · intro hex
    rcases substituteSegments_error_of_missing req.pathParameters
      (rp.splitOn '/') hex with ⟨p, hp, herr⟩
    exact ⟨p, hp,
      by simp only [populate_resource_path, herr, bind, Except.bind]⟩

/-- Witness for C10: the fixture with no path parameters panics on the
template `/items/{id}`, while the custom-domain fixture (which carries `id`)
substitutes successfully. -/
theorem missing_path_parameter_witness :
    (∃ p, List.lookup p fixtureMissingParam.pathParameters = none ∧
      populate_resource_path fixtureMissingParam
        (chars "/items/\x7bid\x7d") = .error (missingParamMsg p)) ∧
    (∃ v, populate_resource_path fixtureCustomDomain
        (chars "/items/\x7bid\x7d") = .ok v) := by
  constructor
  · exact (missing_path_parameter fixtureMissingParam
      (chars "/items/\x7bid\x7d")).2 (by decide)
  · exact (missing_path_parameter fixtureCustomDomain
      (chars "/items/\x7bid\x7d")).1 (by decide)

/-- Helper: a hit of the rfind fold over an initial segment of indices either
satisfies the predicate below the bound or was already the accumulator. -/
theorem rfind_foldl_some (p : Nat → Bool) :
    ∀ (n : Nat) (acc : Option Nat) (i : Nat),
      (List.range n).foldl (fun a j => if p j then some j else a) acc
        = some i →
      (p i = true ∧ i < n) ∨ acc = some i := by
  intro n
  induction n with
  | zero =>
    intro acc i h
    right
    simpa using h
  | succ n ih =>
    intro acc i h
    rw [List.range_succ, List.foldl_append, List.foldl_cons, List.foldl_nil]
      at h
    by_cases hp : p n = true
    · rw [if_pos hp] at h
      cases h
      exact Or.inl ⟨hp, Nat.lt_succ_self n⟩
    · rw [if_neg hp] at h
      rcases ih acc i h with ⟨hpi, hlt⟩ | hacc
      · exact Or.inl ⟨hpi, Nat.lt_succ_of_lt hlt⟩
      · exact Or.inr hacc

/-- Helper: the rfind fold returns a hit at least as large as any index below
the bound satisfying the predicate. -/
theorem rfind_foldl_ge (p : Nat → Bool) :
    ∀ (n : Nat) (acc : Option Nat) (j : Nat), j < n → p j = true →
      ∃ i, (List.range n).foldl (fun a k => if p k then some k else a) acc
          = some i ∧ j ≤ i := by
  intro n
  induction n with
  | zero => intro acc j hj; exact absurd hj (Nat.not_lt_zero j)
  | succ n ih =>
    intro acc j hj hp
    rw [List.range_succ, List.foldl_append, List.foldl_cons, List.foldl_nil]
    by_cases hpn : p n = true
    · rw [if_pos hpn]
      exact ⟨n, rfl, Nat.le_of_lt_succ hj⟩
    · rw [if_neg hpn]
      have hj2 : j < n := by
        rcases Nat.lt_succ_iff_lt_or_eq.mp hj with hlt | heq
        · exact hlt
        · subst heq; exact absurd hp hpn
      exact ih acc j hj2 hp

/-- Helper: what `rfindSub` returns is an occurrence within the haystack. -/
theorem rfindSub_some_spec (hay needle : List Char) (i : Nat)
    (h : rfindSub hay needle = some i) :
    needle.isPrefixOf (hay.drop i) = true ∧ i ≤ hay.length := by
  rcases rfind_foldl_some (fun j => needle.isPrefixOf (hay.drop j))
      (hay.length + 1) none i h with ⟨hp, hlt⟩ | habs
  · exact ⟨hp, Nat.lt_succ_iff.mp hlt⟩
  · exact absurd habs (by simp)

/-- Helper: `rfindSub` returns an index at least as large as any occurrence. -/
theorem rfindSub_ge (hay needle : List Char) (j : Nat)
    (hj : j ≤ hay.length) (hp : needle.isPrefixOf (hay.drop j) = true) :
    ∃ i, rfindSub hay needle = some i ∧ j ≤ i :=
  rfind_foldl_ge (fun k => needle.isPrefixOf (hay.drop k)) (hay.length + 1)
    none j (Nat.lt_succ_of_le hj) hp

/-- C7: for a custom-domain API Gateway event (not the default domain), with
the resource-path template successfully populated from the path parameters,
the base path is everything preceding the located occurrence of the populated
segment inside the full path (so the path factors as base ++ segment ++ rest);
and when the segment cannot be located, the resolver panics (a fatal `.error`)
rather than returning a per-invocation error. -/
theorem custom_domain_base_path (req : ProxyRequest) (stage rp seg : List Char)
    (hctx : req.requestContext = .ApiGateway stage rp)
    (hdef : is_default_api_gateway_url req = false)
    (hseg : populate_resource_path req rp = .ok seg) :
    (∀ i, rfindSub req.path seg = some i →
      ∃ rest, req.path = req.path.take i ++ (seg ++ rest) ∧
        base_path req = .ok (req.path.take i)) ∧
    (rfindSub req.path seg = none →
      base_path req = .error (segmentNotFoundMsg seg req.path)) := by
  constructor
  · intro i hi
    have hpre := (rfindSub_some_spec req.path seg i hi).1
    rcases List.isPrefixOf_iff_prefix.mp hpre with ⟨rest, hrest⟩
    refine ⟨rest, ?_, ?_⟩
    · conv_lhs => rw [← List.take_append_drop i req.path, ← hrest]
    · simp only [base_path, hctx, hdef, hseg, hi, bind, Except.bind,
        Bool.false_eq_true, if_false]
  · intro hnone
    simp only [base_path, hctx, hdef, hseg, hnone, bind, Except.bind,
      Bool.false_eq_true, if_false]

/-- Witness for C7: on the custom-domain fixture the populated segment
`/items/1` is found (last occurrence at index 13 of
`/base/items/1/items/1`), giving base path `/base/items/1`. -/
theorem custom_domain_base_path_witness :
    ∃ rest, fixtureCustomDomain.path
        = fixtureCustomDomain.path.take 13 ++ (chars "/items/1" ++ rest) ∧
      base_path fixtureCustomDomain
        = .ok (fixtureCustomDomain.path.take 13) :=
  (custom_domain_base_path fixtureCustomDomain (chars "Prod")
    (chars "/items/\x7bid\x7d") (chars "/items/1") rfl (by decide)
    (by rfl)).1 13 (by decide)

/-- C9: in custom-domain base-path resolution the search matches the last
occurrence of the populated segment: the resolved base path is everything
before the returned index, and every occurrence of the segment in the path
starts at or before that index. -/
theorem custom_domain_last_occurrence (req : ProxyRequest)
    (stage rp seg : List Char) (i : Nat)
    (hctx : req.requestContext = .ApiGateway stage rp)
    (hdef : is_default_api_gateway_url req = false)
    (hseg : populate_resource_path req rp = .ok seg)
    (hfind : rfindSub req.path seg = some i) :
    base_path req = .ok (req.path.take i) ∧
    ∀ j, j ≤ req.path.length → seg.isPrefixOf (req.path.drop j) = true →
      j ≤ i := by
  constructor
  · simp only [base_path, hctx, hdef, hseg, hfind, bind, Except.bind,
      Bool.false_eq_true, if_false]
  · intro j hj hp
    rcases rfindSub_ge req.path seg j hj hp with ⟨i2, hi2, hji⟩
    rw [hfind] at hi2
    cases hi2
    exact hji

/-- Witness for C9: on the custom-domain fixture `/items/1` occurs at indices
5 and 13 of `/base/items/1/items/1`; the base path is cut at 13, and the
earlier occurrence at 5 is indeed at or before it. -/
theorem custom_domain_last_occurrence_witness :
    base_path fixtureCustomDomain = .ok (fixtureCustomDomain.path.take 13) ∧
    (5 : Nat) ≤ 13 := by
  have h := custom_domain_last_occurrence fixtureCustomDomain (chars "Prod")
    (chars "/items/\x7bid\x7d") (chars "/items/1") 13 rfl (by decide)
    (by rfl) (by decide)
  exact ⟨h.1, h.2 5 (by decide) (by decide)⟩

/-- Helper: serialization splits over concatenation of pair lists, the second
part's leading separator depending on whether the first part was empty. -/
theorem joinC_append (xs ys : List (List Char)) (c : Char) :
    joinC c (xs ++ ys) = joinC c xs ++ joinC (if xs = [] then c else '&') ys := by
  induction xs generalizing c with
  | nil => simp [joinC]
  | cons p ps ih =>
    have h := ih '&'
    simp only [ite_self] at h
    simp only [List.cons_append, joinC, ite_self,
      if_neg (List.cons_ne_nil p ps), List.append_assoc, List.cons.injEq,
      true_and, List.append_eq]
    rw [h]

/-- Helper: the inner loop over one key's values appends that key's pairs,
first one preceded by the current separator, and leaves the separator at `&`
unless no value was emitted. -/
theorem foldl_pairs_inner (pe : List Char → List Char) (k : List Char)
    (vals : List (List Char)) :
    ∀ (s : List Char) (c : Char),
      vals.foldl (fun a v => (a.1 ++ [a.2] ++ pe k ++ ['='] ++ pe v, '&'))
          (s, c)
        = (s ++ joinC c (vals.map (fun v => pe k ++ ['='] ++ pe v)),
           if vals = [] then c else '&') := by
  induction vals with
  | nil => intro s c; simp [joinC]
  | cons v vs ih =>
    intro s c
    rw [List.foldl_cons, ih]
    simp [joinC, List.append_assoc, ite_self]

/-- Helper: the outer loop over the query emits all flattened pairs, the first
preceded by the initial separator and the rest by `&`. -/
theorem foldl_query (pe : List Char → List Char)
    (query : List (List Char × List (List Char))) :
    ∀ (s : List Char) (c : Char),
      query.foldl
          (fun acc kv =>
            kv.2.foldl
              (fun a v => (a.1 ++ [a.2] ++ pe kv.1 ++ ['='] ++ pe v, '&')) acc)
          (s, c)
        = (s ++ joinC c (queryPairs pe query),
           if queryPairs pe query = [] then c else '&') := by
  induction query with
  | nil => intro s c; simp [queryPairs, joinC]
  | cons kv rest ih =>
    intro s c
    rw [List.foldl_cons, foldl_pairs_inner pe kv.1 kv.2 s c, ih]
    have hpairs : queryPairs pe (kv :: rest)
        = kv.2.map (fun v => pe kv.1 ++ ['='] ++ pe v) ++ queryPairs pe rest := by
      simp [queryPairs]
    rw [hpairs, joinC_append, List.append_assoc]
    have hnil : (kv.2.map (fun v => pe kv.1 ++ ['='] ++ pe v) = []) ↔
        kv.2 = [] := by simp
    by_cases h2 : kv.2 = []
    · simp [h2]
    · by_cases hrest : queryPairs pe rest = []
      · simp [h2, hrest, hnil.not.mpr h2]
      · simp [h2, hrest, hnil.not.mpr h2]

/-- Helper: serialization with leading `&` is the flat map prepending `&` to
each pair. -/
theorem joinC_amp_flatMap (ps : List (List Char)) :
    joinC '&' ps = ps.flatMap (fun q => '&' :: q) := by
  induction ps with
  | nil => rfl
  | cons p rest ih => simp [joinC, ih]

/-- C1: the assembled dispatch URI is the path part (base path prepended when
one resolves) followed by the re-serialized query: nothing when there are no
query pairs, otherwise `?`, the first `key=value` pair, and each further pair
preceded by `&`, the pairs being exactly one percent-encoded `key=value` per
value of each key in iteration order (a key with two values contributing two
pairs). -/
theorem query_serialization (pe : List Char → List Char) (incl : Bool)
    (req : ProxyRequest) :
    get_path_and_query pe incl req
      = (match get_api_gateway_base_path incl req with
         | some bp => bp ++ req.path
         | none => req.path)
        ++ (match queryPairs pe req.query with
            | [] => []
            | p :: rest => '?' :: (p ++ rest.flatMap (fun q => '&' :: q))) ∧
    queryPairs pe [] = [] ∧
    (∀ k v1 v2, queryPairs pe [(k, [v1, v2])]
      = [pe k ++ ['='] ++ pe v1, pe k ++ ['='] ++ pe v2]) := by
  refine ⟨?_, rfl,fun k v1 v2 => by simp [queryPairs]⟩
  show (req.query.foldl _ (_, '?')).1 = _
  rw [foldl_query]
  show _ ++ joinC '?' (queryPairs pe req.query) = _
  refine congrArg _ ?_
  cases queryPairs pe req.query with
  | nil => rfl
  | cons p rest => simp [joinC, joinC_amp_flatMap]

end RocketLamb
